import Mathlib

/-!
Verification of the WALinuxAgent update-and-supervision control loop
specification. The guest-agent update modules themselves (ga/update.py,
ga/agent_update_handler.py, ga/guestagent.py) are not part of the staged
source tree -- only their tests are -- so the corresponding operations are
modelled from the specification text (each such definition carries a
doc comment starting with "Modelled from the spec:"). The CLI dispatch
(azurelinuxagent/agent.py) is present in the sources and is embedded
directly from the code.
-/

namespace Wala

/-- Modelled from the spec: versions are ordered, semantic 4-component
numeric tuples (spec section 3, InstalledAgent; section 3 invariant:
"version ordering is total (4-part numeric tuples)"). -/
structure FlexibleVersion where
  major : Nat
  minor : Nat
  patch : Nat
  build : Nat
deriving DecidableEq, Repr

/-- Modelled from the spec: lexicographic strict order on 4-part versions,
so that "latest", "greater than daemon version" and "downgrade" are
well-defined (spec section 3). -/
def versionLt (a b : FlexibleVersion) : Bool :=
  if a.major = b.major then
    if a.minor = b.minor then
      if a.patch = b.patch then decide (a.build < b.build)
      else decide (a.patch < b.patch)
    else decide (a.minor < b.minor)
  else decide (a.major < b.major)

/-- Non-strict companion of `versionLt`. -/
def versionLe (a b : FlexibleVersion) : Bool :=
  versionLt a b || decide (a = b)

theorem versionLt_iff (a b : FlexibleVersion) :
    versionLt a b = true ↔
      (a.major < b.major ∨ (a.major = b.major ∧
        (a.minor < b.minor ∨ (a.minor = b.minor ∧
          (a.patch < b.patch ∨ (a.patch = b.patch ∧ a.build < b.build)))))) := by
  unfold versionLt
  split_ifs with h1 h2 h3 <;> simp only [decide_eq_true_eq] <;> omega

theorem versionLt_eq_false_iff (a b : FlexibleVersion) :
    versionLt a b = false ↔ ¬(versionLt a b = true) := by
  cases h : versionLt a b <;> simp

theorem versionLe_iff (a b : FlexibleVersion) :
    versionLe a b = true ↔
      (versionLt a b = true ∨
        (a.major = b.major ∧ a.minor = b.minor ∧ a.patch = b.patch ∧ a.build = b.build)) := by
  unfold versionLe
  cases a with
  | mk am ai ap ab =>
    cases b with
    | mk bm bi bp bb =>
      simp [FlexibleVersion.mk.injEq, and_assoc]

theorem versionLt_irrefl (a : FlexibleVersion) : versionLt a a = false := by
  rw [versionLt_eq_false_iff, versionLt_iff]
  omega

theorem versionLe_false_of_lt {x y : FlexibleVersion} (h : versionLt x y = true) :
    versionLe y x = false := by
  cases hle : versionLe y x with
  | false => rfl
  | true =>
    exfalso
    rw [versionLe_iff] at hle
    rw [versionLt_iff] at h
    rcases hle with hlt | heq
    · rw [versionLt_iff] at hlt
      omega
    · omega

theorem versionLt_false_trans {x a v : FlexibleVersion}
    (h1 : versionLt x a = true) (h2 : versionLt x v = false) :
    versionLt a v = false := by
  rw [versionLt_eq_false_iff, versionLt_iff]
  rw [versionLt_iff] at h1
  rw [versionLt_eq_false_iff, versionLt_iff] at h2
  omega

/-- Modelled from the spec: pick the element with the largest version from a
list (the "latest" of an installed-agent set or a package manifest). -/
def pickMaxBy {α : Type} (ver : α → FlexibleVersion) : List α → Option α
  | [] => none
  | a :: rest =>
    match pickMaxBy ver rest with
    | none => some a
    | some m => if versionLt (ver m) (ver a) then some a else some m

theorem pickMaxBy_mem {α : Type} (ver : α → FlexibleVersion) (l : List α) (m : α)
    (h : pickMaxBy ver l = some m) : m ∈ l := by
  induction l with
  | nil => simp [pickMaxBy] at h
  | cons a rest ih =>
    rw [pickMaxBy] at h
    cases hrest : pickMaxBy ver rest with
    | none =>
      rw [hrest] at h
      simp at h
      simp [h]
    | some m' =>
      rw [hrest] at h
      by_cases hlt : versionLt (ver m') (ver a) = true
      · simp [hlt] at h
        simp [h]
      · simp [hlt] at h
        subst h
        exact List.mem_cons_of_mem a (ih hrest)

theorem pickMaxBy_ne_none {α : Type} (ver : α → FlexibleVersion) (a : α) (rest : List α) :
    pickMaxBy ver (a :: rest) ≠ none := by
  rw [pickMaxBy]
  cases pickMaxBy ver rest with
  | none => simp
  | some m' => by_cases h : versionLt (ver m') (ver a) = true <;> simp [h]

theorem pickMaxBy_not_lt {α : Type} (ver : α → FlexibleVersion) (l : List α) (m : α)
    (h : pickMaxBy ver l = some m) : ∀ a ∈ l, versionLt (ver m) (ver a) = false := by
  induction l generalizing m with
  | nil => simp [pickMaxBy] at h
  | cons a rest ih =>
    rw [pickMaxBy] at h
    cases hrest : pickMaxBy ver rest with
    | none =>
      rw [hrest] at h
      simp only [Option.some.injEq] at h
      cases rest with
      | nil =>
        intro b hb
        rcases List.mem_cons.mp hb with hb | hb
        · subst h; subst hb; exact versionLt_irrefl _
        · simp at hb
      | cons c cs => exact absurd hrest (pickMaxBy_ne_none ver c cs)
    | some m' =>
      rw [hrest] at h
      have h' : (if versionLt (ver m') (ver a) = true then some a else some m') = some m := h
      by_cases hlt : versionLt (ver m') (ver a) = true
      · rw [if_pos hlt] at h'
        injection h' with h'
        intro b hb
        rcases List.mem_cons.mp hb with hb | hb
        · rw [← h', hb]; exact versionLt_irrefl _
        · rw [← h']
          exact versionLt_false_trans hlt (ih m' hrest b hb)
      · rw [if_neg hlt] at h'
        injection h' with h'
        intro b hb
        rcases List.mem_cons.mp hb with hb | hb
        · rw [← h', hb]
          simpa using hlt
        · rw [← h']
          exact ih m' hrest b hb

theorem pickMaxBy_isSome {α : Type} (ver : α → FlexibleVersion) (l : List α)
    (h : l ≠ []) : ∃ m, pickMaxBy ver l = some m := by
  cases l with
  | nil => exact absurd rfl h
  | cons a rest =>
    rw [pickMaxBy]
    cases pickMaxBy ver rest with
    | none => exact ⟨a, rfl⟩
    | some m' =>
      by_cases hlt : versionLt (ver m') (ver a) = true
      · exact ⟨a, by simp [hlt]⟩
      · exact ⟨m', by simp [hlt]⟩

/-- Modelled from the spec: the persisted per-agent error state
{last_failure_time, failure_count, was_fatal, reason} (spec section 3,
InstalledAgent). -/
structure GuestAgentError where
  last_failure : Nat
  failure_count : Nat
  was_fatal : Bool
  why : String
deriving DecidableEq, Repr

/-- Modelled from the spec: the error state of an agent with no prior
failure. -/
def emptyError : GuestAgentError :=
  { last_failure := 0, failure_count := 0, was_fatal := false, why := "" }

/-- Modelled from the spec: recording a failure increments the retry count;
an agent becomes permanently blacklisted once was_fatal is recorded
(spec section 3 invariant). -/
def mark_failure (e : GuestAgentError) (now : Nat) (is_fatal : Bool) (why : String) :
    GuestAgentError :=
  { last_failure := now
    failure_count := e.failure_count + 1
    was_fatal := e.was_fatal || is_fatal
    why := why }

def GuestAgentError.is_blacklisted (e : GuestAgentError) : Bool := e.was_fatal

/-- Modelled from the spec: one locally unpacked agent version with its
persisted error state (spec section 3, InstalledAgent). -/
structure GuestAgent where
  version : FlexibleVersion
  error : GuestAgentError
deriving DecidableEq, Repr

/-- Modelled from the spec: availability is derived; an agent is available
unless its error state records a fatal failure (spec section 3). -/
def GuestAgent.is_available (a : GuestAgent) : Bool := !a.error.was_fatal

/-- Modelled from the spec: the on-disk per-agent error record, whose
consumers must tolerate a missing or corrupt record (spec section 6). -/
inductive ErrorRecord
  | ok (e : GuestAgentError)
  | corrupt
  | missing
deriving DecidableEq

/-- Modelled from the spec: loading a per-agent error record treats a
missing or corrupt record as "no prior failure" (spec section 6, durable
markers). -/
def loadError : ErrorRecord → GuestAgentError
  | ErrorRecord.ok e => e
  | ErrorRecord.corrupt => emptyError
  | ErrorRecord.missing => emptyError

/-- Modelled from the spec: loading one installed agent from disk from its
version directory and error record. -/
def from_installed_agent (version : FlexibleVersion) (rec : ErrorRecord) : GuestAgent :=
  { version := version, error := loadError rec }

/-- Modelled from the spec: select_target / get_latest_agent_greater_than_daemon
returns the largest installed agent version that is strictly greater than
the daemon version and not blacklisted, or none (spec section 8:
"select_target() never returns a version less than or equal to the daemon
version, and never returns a blacklisted version"). -/
def get_latest_agent_greater_than_daemon
    (daemon_version : FlexibleVersion) (agents : List GuestAgent) : Option GuestAgent :=
  pickMaxBy (fun a => a.version)
    (agents.filter fun a => a.is_available && versionLt daemon_version a.version)

/-- C1: for every set of installed agents, the selection operation never
returns an agent whose version is less than or equal to the daemon version,
and never returns a blacklisted (unavailable) agent; when no agent is both
available and strictly greater than the daemon version it returns none. -/
theorem select_target_sound (daemon_version : FlexibleVersion) (agents : List GuestAgent) :
    (∀ a, get_latest_agent_greater_than_daemon daemon_version agents = some a →
        a.is_available = true ∧ versionLt daemon_version a.version = true ∧
        versionLe a.version daemon_version = false) ∧
    ((∀ b ∈ agents, ¬(b.is_available = true ∧ versionLt daemon_version b.version = true)) →
        get_latest_agent_greater_than_daemon daemon_version agents = none) := by
  constructor
  · intro a h
    have hmem := pickMaxBy_mem _ _ _ h
    have hfilter := List.mem_filter.mp hmem
    have hpred := hfilter.2
    rw [Bool.and_eq_true] at hpred
    refine ⟨hpred.1, hpred.2, versionLe_false_of_lt hpred.2⟩
  · intro hnone
    unfold get_latest_agent_greater_than_daemon
    have : agents.filter (fun a => a.is_available && versionLt daemon_version a.version) = [] := by
      rw [List.filter_eq_nil_iff]
      intro b hb
      have := hnone b hb
      rw [Bool.and_eq_true]
      tauto
    rw [this]
    rfl

/-- Modelled from the spec: an immutable goal-state snapshot, an opaque
object with an incarnation (string-typed monotonic id) and an id
(spec sections 1 and 3). -/
structure GoalState where
  incarnation : String
  ident : String
deriving DecidableEq, Repr

/-- Events the goal-state polling component logs / reports (spec section
4.1): an individual fetch error, an aggregated periodic "still failing"
report, and a "recovered" message. -/
inductive PollEvent
  | errorEvt
  | periodicErrorEvt
  | recoveredEvt
deriving DecidableEq, Repr

/-- Modelled from the spec: the polling component state: the current goal
state held by the control loop, the in-memory consecutive error streak, and
the periodic report timer (the earliest time at which the next aggregated
"still failing" report may fire) (spec section 4.1). -/
structure PollState where
  current : Option GoalState
  errorCount : Nat
  nextErrorReport : Nat
deriving DecidableEq, Repr

/-- Modelled from the spec: the first 3 consecutive failures are reported as
individual error events (spec section 4.1). -/
def maxErrorsToReport : Nat := 3

/-- Modelled from the spec: try_update_goal_state(protocol) -> bool.
Fetches a new goal state (`fetch` is the outcome; none models a fetch
failure at time `now`). Returns true if the incarnation changed or this is
the first successful fetch, false if the fetch failed or the incarnation is
unchanged. On failure the error streak is incremented; the first 3
consecutive failures produce individual error events, later ones are
suppressed until the periodic report timer (window `window`) elapses, when
one aggregated event fires. On the first success after a failure streak
exactly one "recovered" event fires and the streak resets. On a changed
incarnation the new goal state replaces the current one (spec section 4.1). -/
def try_update_goal_state (window : Nat) (s : PollState) (fetch : Option GoalState)
    (now : Nat) : Bool × PollState × List PollEvent :=
  match fetch with
  | none =>
    let ec := s.errorCount + 1
    if ec ≤ maxErrorsToReport then
      (false, { s with errorCount := ec }, [PollEvent.errorEvt])
    else if s.nextErrorReport ≤ now then
      (false, { s with errorCount := ec, nextErrorReport := now + window },
        [PollEvent.periodicErrorEvt])
    else
      (false, { s with errorCount := ec }, [])
  | some gs =>
    let evs := if 0 < s.errorCount then [PollEvent.recoveredEvt] else []
    match s.current with
    | none =>
      (true, { current := some gs, errorCount := 0, nextErrorReport := s.nextErrorReport }, evs)
    | some cur =>
      if cur.incarnation = gs.incarnation then
        (false, { s with errorCount := 0 }, evs)
      else
        (true, { current := some gs, errorCount := 0, nextErrorReport := s.nextErrorReport }, evs)

/-- Iterated polling: one `try_update_goal_state` step per (fetch outcome,
time) input; collects all reported events in order. -/
def pollRun (window : Nat) (s : PollState) :
    List (Option GoalState × Nat) → PollState × List PollEvent
  | [] => (s, [])
  | (f, t) :: rest =>
    let step := try_update_goal_state window s f t
    let r := pollRun window step.2.1 rest
    (r.1, step.2.2 ++ r.2)

/-- Number of occurrences of one poll event in a report list. -/
def countEvents (e : PollEvent) : List PollEvent → Nat
  | [] => 0
  | x :: rest => (if x = e then 1 else 0) + countEvents e rest

theorem countEvents_append (e : PollEvent) (l1 l2 : List PollEvent) :
    countEvents e (l1 ++ l2) = countEvents e l1 + countEvents e l2 := by
  induction l1 with
  | nil => simp [countEvents]
  | cons x rest ih =>
    simp [countEvents, ih]
    omega

theorem pollRun_append (window : Nat) (s : PollState) (l1 l2 : List (Option GoalState × Nat)) :
    pollRun window s (l1 ++ l2) =
      ((pollRun window (pollRun window s l1).1 l2).1,
        (pollRun window s l1).2 ++ (pollRun window (pollRun window s l1).1 l2).2) := by
  induction l1 generalizing s with
  | nil => simp [pollRun]
  | cons p rest ih =>
    obtain ⟨f, t⟩ := p
    simp [pollRun, ih, List.append_assoc]

/-- The streak counter counts consecutive failures: a run of k failures from
streak c ends with streak c + k. -/
theorem errorCount_after_failures (window : Nat) (s : PollState) (ts : List Nat) :
    (pollRun window s (ts.map fun t => ((none : Option GoalState), t))).1.errorCount
      = s.errorCount + ts.length := by
  induction ts generalizing s with
  | nil => simp [pollRun]
  | cons t ts ih =>
    simp only [List.map_cons, pollRun, try_update_goal_state]
    by_cases h1 : s.errorCount + 1 ≤ maxErrorsToReport
    · rw [if_pos h1]
      simp [ih]
      omega
    · rw [if_neg h1]
      by_cases h2 : s.nextErrorReport ≤ t
      · rw [if_pos h2]
        simp [ih]
        omega
      · rw [if_neg h2]
        simp [ih]
        omega

/-- A failed fetch never reports recovery. -/
theorem no_recovered_in_failures (window : Nat) (s : PollState) (ts : List Nat) :
    countEvents PollEvent.recoveredEvt
      (pollRun window s (ts.map fun t => ((none : Option GoalState), t))).2 = 0 := by
  induction ts generalizing s with
  | nil => simp [pollRun, countEvents]
  | cons t ts ih =>
    simp only [List.map_cons, pollRun, try_update_goal_state]
    by_cases h1 : s.errorCount + 1 ≤ maxErrorsToReport
    · rw [if_pos h1]
      simp [countEvents_append, countEvents, ih]
    · rw [if_neg h1]
      by_cases h2 : s.nextErrorReport ≤ t
      · rw [if_pos h2]
        simp [countEvents_append, countEvents, ih]
      · rw [if_neg h2]
        simp [countEvents_append, countEvents, ih]

/-- In a run of consecutive failures the individual (immediate) error events
are exactly the first `maxErrorsToReport - streak` ones. -/
theorem count_errorEvt_failures (window : Nat) (s : PollState) (ts : List Nat) :
    countEvents PollEvent.errorEvt
      (pollRun window s (ts.map fun t => ((none : Option GoalState), t))).2
      = min (maxErrorsToReport - s.errorCount) ts.length := by
  induction ts generalizing s with
  | nil => simp [pollRun, countEvents]
  | cons t ts ih =>
    simp only [List.map_cons, pollRun, try_update_goal_state]
    by_cases h1 : s.errorCount + 1 ≤ maxErrorsToReport
    · rw [if_pos h1]
      simp only [maxErrorsToReport] at h1
      simp [countEvents_append, countEvents, ih, maxErrorsToReport]
      omega
    · rw [if_neg h1]
      simp only [maxErrorsToReport] at h1
      by_cases h2 : s.nextErrorReport ≤ t
      · rw [if_pos h2]
        simp [countEvents_append, countEvents, ih, maxErrorsToReport]
        omega
      · rw [if_neg h2]
        simp [countEvents_append, countEvents, ih, maxErrorsToReport]
        omega

/-- One polling step either leaves the periodic-report timer untouched and
fires no aggregated report, or (only when the timer has elapsed) fires
exactly one aggregated report and re-arms the timer one window ahead. -/
theorem try_update_periodic_cases (window : Nat) (s : PollState) (f : Option GoalState)
    (t : Nat) :
    (countEvents PollEvent.periodicErrorEvt (try_update_goal_state window s f t).2.2 = 0
      ∧ (try_update_goal_state window s f t).2.1.nextErrorReport = s.nextErrorReport)
    ∨ (countEvents PollEvent.periodicErrorEvt (try_update_goal_state window s f t).2.2 = 1
      ∧ (try_update_goal_state window s f t).2.1.nextErrorReport = t + window
      ∧ s.nextErrorReport ≤ t) := by
  cases f with
  | none =>
    simp only [try_update_goal_state]
    by_cases h1 : s.errorCount + 1 ≤ maxErrorsToReport
    · rw [if_pos h1]
      left
      simp [countEvents]
    · rw [if_neg h1]
      by_cases h2 : s.nextErrorReport ≤ t
      · rw [if_pos h2]
        right
        simp [countEvents, h2]
      · rw [if_neg h2]
        left
        simp [countEvents]
  | some gs =>
    simp only [try_update_goal_state]
    cases hcur : s.current with
    | none =>
      left
      by_cases h0 : 0 < s.errorCount <;> simp [h0, countEvents]
    | some cur =>
      by_cases hinc : cur.incarnation = gs.incarnation
      · left
        by_cases h0 : 0 < s.errorCount <;> simp [hinc, h0, countEvents]
      · left
        by_cases h0 : 0 < s.errorCount <;> simp [hinc, h0, countEvents]

/-- Periodic-report bookkeeping: the report timer never moves backwards, it
advances by at least one window per aggregated report, it stays put when no
aggregated report fires, and after at least one aggregated report it is at
most one window past the last input time bound. -/
theorem periodic_report_invariant (window T : Nat) (s : PollState)
    (inputs : List (Option GoalState × Nat)) (ht : ∀ p ∈ inputs, p.2 ≤ T) :
    (s.nextErrorReport
        + countEvents PollEvent.periodicErrorEvt (pollRun window s inputs).2 * window
      ≤ (pollRun window s inputs).1.nextErrorReport)
    ∧ (countEvents PollEvent.periodicErrorEvt (pollRun window s inputs).2 = 0 →
        (pollRun window s inputs).1.nextErrorReport = s.nextErrorReport)
    ∧ (1 ≤ countEvents PollEvent.periodicErrorEvt (pollRun window s inputs).2 →
        (pollRun window s inputs).1.nextErrorReport ≤ T + window) := by
  induction inputs generalizing s with
  | nil => simp [pollRun, countEvents]
  | cons p rest ih =>
    obtain ⟨f, t⟩ := p
    have htT : t ≤ T := ht (f, t) (List.mem_cons_self _ _)
    have htrest : ∀ p ∈ rest, p.2 ≤ T := fun p hp => ht p (List.mem_cons_of_mem _ hp)
    obtain ⟨ha, hb, hc⟩ := ih (try_update_goal_state window s f t).2.1 htrest
    have hstep := try_update_periodic_cases window s f t
    simp only [pollRun, countEvents_append]
    rcases hstep with ⟨h0, hkeep⟩ | ⟨h1, hset, hle⟩
    · refine ⟨?_, ?_, ?_⟩
      · rw [h0, Nat.zero_add, ← hkeep]
        exact ha
      · intro hz
        rw [h0, Nat.zero_add] at hz
        rw [hb hz, hkeep]
      · intro hone
        rw [h0, Nat.zero_add] at hone
        exact hc hone
    · refine ⟨?_, ?_, ?_⟩
      · rw [hset] at ha
        rw [h1, Nat.add_mul, Nat.one_mul]
        omega
      · intro hz
        rw [h1] at hz
        omega
      · intro _
        rcases Nat.eq_zero_or_pos
            (countEvents PollEvent.periodicErrorEvt
              (pollRun window (try_update_goal_state window s f t).2.1 rest).2) with hz | hpos
        · rw [hb hz, hset]
          omega
        · exact hc hpos

/-- A successful fetch reports exactly one "recovered" event when a failure
streak precedes it, and nothing otherwise. -/
theorem success_step_events (window : Nat) (s : PollState) (gs : GoalState) (now : Nat) :
    (try_update_goal_state window s (some gs) now).2.2
      = if 0 < s.errorCount then [PollEvent.recoveredEvt] else [] := by
  obtain ⟨scur, sec, snr⟩ := s
  cases scur with
  | none => simp [try_update_goal_state]
  | some cur =>
    by_cases hinc : cur.incarnation = gs.incarnation <;>
      simp [try_update_goal_state, hinc]

/-- A failed fetch returns false and leaves the held goal state in place. -/
theorem failure_step_result (window : Nat) (s : PollState) (now : Nat) :
    (try_update_goal_state window s none now).1 = false ∧
    (try_update_goal_state window s none now).2.1.current = s.current := by
  simp only [try_update_goal_state]
  split_ifs <;> simp

/-- A successful fetch returns true exactly when it is the first success or
the incarnation changed; on true the fetched goal state replaces the held
one, on an unchanged incarnation it does not. -/
theorem success_step_result (window : Nat) (s : PollState) (gs : GoalState) (now : Nat) :
    ((try_update_goal_state window s (some gs) now).1 = true ↔
        (s.current = none ∨ ∃ cur, s.current = some cur ∧ cur.incarnation ≠ gs.incarnation))
    ∧ ((try_update_goal_state window s (some gs) now).1 = true →
        (try_update_goal_state window s (some gs) now).2.1.current = some gs)
    ∧ (∀ cur, s.current = some cur → cur.incarnation = gs.incarnation →
        (try_update_goal_state window s (some gs) now).1 = false ∧
        (try_update_goal_state window s (some gs) now).2.1.current = s.current) := by
  obtain ⟨scur, sec, snr⟩ := s
  cases scur with
  | none => simp [try_update_goal_state]
  | some cur =>
    by_cases hinc : cur.incarnation = gs.incarnation <;>
      simp [try_update_goal_state, hinc]

/-- The first success after a streak of `ts.length` failures reports exactly
one recovery when the streak is nonempty and nothing when it is empty. -/
theorem recovered_after_streak (window : Nat) (s : PollState) (ts : List Nat)
    (gs : GoalState) (now : Nat) (h0 : s.errorCount = 0) :
    countEvents PollEvent.recoveredEvt
        (pollRun window s
          (ts.map (fun t => ((none : Option GoalState), t)) ++ [(some gs, now)])).2
      = if ts.length = 0 then 0 else 1 := by
  rw [pollRun_append, countEvents_append, no_recovered_in_failures]
  simp only [pollRun, List.append_nil, Nat.zero_add]
  rw [success_step_events, errorCount_after_failures, h0, Nat.zero_add]
  by_cases hl : ts.length = 0
  · simp [hl, countEvents]
  · simp [hl, countEvents, Nat.pos_of_ne_zero hl]

/-- C2: for every sequence of goal-state fetch outcomes, at most 3 (exactly
min(3 - streak, n)) consecutive immediate per-failure error events are
reported; aggregated "still failing" reports are spaced at least one
reporting window apart (k reports by time T force nextErrorReport +
(k-1)*window <= T); and the first success after a failure streak emits
exactly one "recovered" event, while a success with no preceding failure
streak emits nothing. -/
theorem goal_state_fetch_report_policy (window : Nat) :
    (∀ (s : PollState) (ts : List Nat),
        countEvents PollEvent.errorEvt
            (pollRun window s (ts.map fun t => ((none : Option GoalState), t))).2
          = min (maxErrorsToReport - s.errorCount) ts.length)
    ∧ (∀ (T : Nat) (s : PollState) (inputs : List (Option GoalState × Nat)),
        (∀ p ∈ inputs, p.2 ≤ T) →
        1 ≤ countEvents PollEvent.periodicErrorEvt (pollRun window s inputs).2 →
        s.nextErrorReport
            + (countEvents PollEvent.periodicErrorEvt (pollRun window s inputs).2 - 1) * window
          ≤ T)
    ∧ (∀ (s : PollState) (ts : List Nat) (gs : GoalState) (now : Nat),
        s.errorCount = 0 →
        countEvents PollEvent.recoveredEvt
            (pollRun window s
              (ts.map (fun t => ((none : Option GoalState), t)) ++ [(some gs, now)])).2
          = if ts.length = 0 then 0 else 1)
    ∧ (∀ (s : PollState) (gs : GoalState) (now : Nat),
        s.errorCount = 0 → (try_update_goal_state window s (some gs) now).2.2 = []) := by
  refine ⟨count_errorEvt_failures window, ?_, recovered_after_streak window, ?_⟩
  · intro T s inputs ht hone
    obtain ⟨ha, hb, hc⟩ := periodic_report_invariant window T s inputs ht
    have h2 := hc hone
    have h3 : s.nextErrorReport
        + countEvents PollEvent.periodicErrorEvt (pollRun window s inputs).2 * window
        ≤ T + window := le_trans ha h2
    have hk1 : countEvents PollEvent.periodicErrorEvt (pollRun window s inputs).2
        = (countEvents PollEvent.periodicErrorEvt (pollRun window s inputs).2 - 1) + 1 := by
      omega
    rw [hk1, Nat.add_mul, Nat.one_mul] at h3
    omega
  · intro s gs now h0
    rw [success_step_events, h0]
    simp

/-- C3: try_update_goal_state returns true exactly when the fetch succeeds
and either this is the first successful fetch or the fetched incarnation
differs from the currently held one; it returns false when the fetch fails
or the incarnation is unchanged; on a changed incarnation the new goal
state replaces the current one, and on an unchanged incarnation (and on
failure) the held goal state is not replaced. -/
theorem try_update_goal_state_contract (window : Nat) (s : PollState)
    (fetch : Option GoalState) (now : Nat) :
    ((try_update_goal_state window s fetch now).1 = true ↔
      ∃ gs, fetch = some gs ∧
        (s.current = none ∨ ∃ cur, s.current = some cur ∧ cur.incarnation ≠ gs.incarnation))
    ∧ (fetch = none →
        (try_update_goal_state window s fetch now).1 = false ∧
        (try_update_goal_state window s fetch now).2.1.current = s.current)
    ∧ (∀ gs, fetch = some gs → (try_update_goal_state window s fetch now).1 = true →
        (try_update_goal_state window s fetch now).2.1.current = some gs)
    ∧ (∀ gs cur, fetch = some gs → s.current = some cur →
        cur.incarnation = gs.incarnation →
        (try_update_goal_state window s fetch now).1 = false ∧
        (try_update_goal_state window s fetch now).2.1.current = s.current) := by
  refine ⟨?_, ?_, ?_, ?_⟩
  · cases fetch with
    | none =>
      rw [(failure_step_result window s now).1]
      simp
    | some gs =>
      have h := (success_step_result window s gs now).1
      rw [h]
      simp
  · intro hf
    subst hf
    exact failure_step_result window s now
  · intro gs hf
    subst hf
    exact (success_step_result window s gs now).2.1
  · intro gs cur hf hcur hinc
    subst hf
    exact (success_step_result window s gs now).2.2 cur hcur hinc

/-- Outcome of supervising the child process in run_latest: either the
child exited with an explicit exit code, or an exception was raised while
spawning or monitoring it (spec section 4.4). -/
inductive ChildOutcome
  | exited (code : Nat)
  | exn (msg : String)
deriving DecidableEq, Repr

/-- Modelled from the spec: the failure-recording part of run_latest.
On an explicit nonzero exit code the failure is recorded as non-fatal
(increments the count, does not blacklist); on an exception while spawning
or monitoring the failure is recorded as fatal (blacklists the version),
unless the supervisor is already terminating (is_running is false), in
which case the failure is swallowed and the error state is untouched
(spec section 4.4). -/
def run_latest (is_running : Bool) (now : Nat) (agent : GuestAgent)
    (outcome : ChildOutcome) : GuestAgent :=
  match outcome with
  | ChildOutcome.exited code =>
    if code ≠ 0 then
      { agent with error := mark_failure agent.error now false "agent exited with nonzero code" }
    else
      agent
  | ChildOutcome.exn msg =>
    if is_running then
      { agent with error := mark_failure agent.error now true msg }
    else
      agent

/-- C4: in run_latest a child that exits with a nonzero code is recorded as
a non-fatal failure (the failure count increases, the blacklist flag is
unchanged, an available agent stays available), an exception while spawning
or monitoring records a fatal failure that blacklists the agent version,
except when the supervisor is already terminating (is_running false), in
which case the failure is swallowed and the error state is left unchanged. -/
theorem run_latest_failure_semantics (is_running : Bool) (now : Nat) (agent : GuestAgent)
    (code : Nat) (msg : String) :
    (code ≠ 0 →
        (run_latest is_running now agent (ChildOutcome.exited code)).error.failure_count
            = agent.error.failure_count + 1
        ∧ (run_latest is_running now agent (ChildOutcome.exited code)).error.is_blacklisted
            = agent.error.is_blacklisted
        ∧ (agent.is_available = true →
            (run_latest is_running now agent (ChildOutcome.exited code)).is_available = true))
    ∧ (is_running = true →
        (run_latest is_running now agent (ChildOutcome.exn msg)).error.is_blacklisted = true
        ∧ (run_latest is_running now agent (ChildOutcome.exn msg)).is_available = false)
    ∧ (is_running = false →
        run_latest is_running now agent (ChildOutcome.exn msg) = agent) := by
  refine ⟨?_, ?_, ?_⟩
  · intro hc
    rw [run_latest]
    rw [if_pos hc]
    refine ⟨rfl, ?_, ?_⟩
    · simp [mark_failure, GuestAgentError.is_blacklisted]
    · intro hav
      simp only [GuestAgent.is_available, mark_failure] at hav ⊢
      simp only [Bool.not_eq_true'] at hav
      simp [hav]
  · intro hr
    subst hr
    rw [run_latest]
    simp [mark_failure, GuestAgentError.is_blacklisted, GuestAgent.is_available]
  · intro hr
    subst hr
    rw [run_latest]
    simp

/-- Modelled from the spec: per-version retry-budget state: the number of
update attempts made for the version, whether a fatal failure is currently
recorded against it, and whether the "exhausted retries" telemetry event
has already been emitted for it (spec sections 4.2 and 8). -/
structure VersionState where
  attempt_count : Nat
  was_fatal : Bool
  reported : Bool
deriving DecidableEq, Repr

/-- Modelled from the spec: the fixed retry ceiling (3). -/
def updateAttemptLimit : Nat := 3

/-- Modelled from the spec: a version is exhausted (fatally blacklisted and
excluded from resolution) once it is marked fatal and its attempt count has
reached the ceiling (spec sections 4.2 and 8). -/
def exhausted (s : VersionState) : Bool :=
  s.was_fatal && decide (updateAttemptLimit ≤ s.attempt_count)

/-- Telemetry emitted by the retry-budget logic: "attempted enough update
retries for this version but the agent did not recover". -/
inductive UpdateEvent
  | exhaustedRetries (v : FlexibleVersion)
deriving DecidableEq, Repr

/-- Operations touching the per-version retry budget: a resolution request
for some version, or a recorded fatal failure of a spawned version. -/
inductive UpdateOp
  | request (v : FlexibleVersion)
  | fatalFailure (v : FlexibleVersion)
deriving DecidableEq, Repr

/-- Point update of the per-version state map. -/
def setVer (inv : FlexibleVersion → VersionState) (v : FlexibleVersion)
    (s : VersionState) : FlexibleVersion → VersionState :=
  fun w => if w = v then s else inv w

/-- Modelled from the spec: one retry-budget step. A request for an
exhausted version is refused; the first such refusal emits the single
"exhausted retries" telemetry event. A request for a non-exhausted version
proceeds: the attempt count is incremented and the fresh install clears the
fatal mark (below the ceiling a prior fatal mark does not prevent further
attempts). A fatal failure of a spawned version records was_fatal
(spec sections 4.2, 4.3 and 8). -/
def updateStep (inv : FlexibleVersion → VersionState) :
    UpdateOp → (FlexibleVersion → VersionState) × List UpdateEvent × Bool
  | UpdateOp.request v =>
    let s := inv v
    if exhausted s then
      if s.reported then
        (inv, [], false)
      else
        (setVer inv v { s with reported := true }, [UpdateEvent.exhaustedRetries v], false)
    else
      (setVer inv v
          { attempt_count := s.attempt_count + 1, was_fatal := false, reported := s.reported },
        [], true)
  | UpdateOp.fatalFailure v =>
    let s := inv v
    (setVer inv v { s with was_fatal := true }, [], false)

/-- Iterated retry-budget steps, collecting all telemetry events. -/
def runOps (inv : FlexibleVersion → VersionState) :
    List UpdateOp → (FlexibleVersion → VersionState) × List UpdateEvent
  | [] => (inv, [])
  | op :: rest =>
    let r := updateStep inv op
    let rr := runOps r.1 rest
    (rr.1, r.2.1 ++ rr.2)

/-- Number of occurrences of one telemetry event in a list. -/
def countUE (e : UpdateEvent) : List UpdateEvent → Nat
  | [] => 0
  | x :: rest => (if x = e then 1 else 0) + countUE e rest

theorem countUE_append (e : UpdateEvent) (l1 l2 : List UpdateEvent) :
    countUE e (l1 ++ l2) = countUE e l1 + countUE e l2 := by
  induction l1 with
  | nil => simp [countUE]
  | cons x rest ih =>
    simp [countUE, ih]
    omega

/-- Exhaustion of a version is preserved by every retry-budget step. -/
theorem updateStep_preserves_exhausted (inv : FlexibleVersion → VersionState)
    (op : UpdateOp) (v : FlexibleVersion) (h : exhausted (inv v) = true) :
    exhausted ((updateStep inv op).1 v) = true := by
  cases op with
  | request w =>
    rw [updateStep]
    by_cases hex : exhausted (inv w) = true
    · rw [if_pos hex]
      by_cases hrep : (inv w).reported = true
      · rw [if_pos hrep]
        exact h
      · rw [if_neg hrep]
        simp only [setVer]
        by_cases hvw : v = w
        · subst hvw
          simp only [if_pos rfl]
          exact h
        · rw [if_neg hvw]
          exact h
    · rw [if_neg hex]
      simp only [setVer]
      by_cases hvw : v = w
      · subst hvw
        exact absurd h hex
      · rw [if_neg hvw]
        exact h
  | fatalFailure w =>
    rw [updateStep]
    simp only [setVer]
    by_cases hvw : v = w
    · subst hvw
      simp only [if_pos rfl]
      have h2 : updateAttemptLimit ≤ (inv v).attempt_count := by
        simp only [exhausted, Bool.and_eq_true, decide_eq_true_eq] at h
        exact h.2
      simp [exhausted, h2]
    · rw [if_neg hvw]
      exact h

/-- Exhaustion of a version is preserved by every run of retry-budget
steps, whatever versions those steps touch. -/
theorem runOps_preserves_exhausted (inv : FlexibleVersion → VersionState)
    (ops : List UpdateOp) (v : FlexibleVersion) (h : exhausted (inv v) = true) :
    exhausted ((runOps inv ops).1 v) = true := by
  induction ops generalizing inv with
  | nil => exact h
  | cons op rest ih =>
    rw [runOps]
    exact ih _ (updateStep_preserves_exhausted inv op v h)

/-- A request for an exhausted version never proceeds. -/
theorem updateStep_refuses_exhausted (inv : FlexibleVersion → VersionState)
    (v : FlexibleVersion) (h : exhausted (inv v) = true) :
    (updateStep inv (UpdateOp.request v)).2.2 = false := by
  rw [updateStep]
  rw [if_pos h]
  by_cases hrep : (inv v).reported = true
  · rw [if_pos hrep]
  · rw [if_neg hrep]

/-- One step emits the "exhausted retries" event for a version only while
flipping that version's reported flag from false to true; the flag never
goes back. -/
theorem updateStep_event_budget (inv : FlexibleVersion → VersionState)
    (op : UpdateOp) (v : FlexibleVersion) :
    countUE (UpdateEvent.exhaustedRetries v) (updateStep inv op).2.1
        + (if (inv v).reported = true then 1 else 0)
      ≤ (if (((updateStep inv op).1) v).reported = true then 1 else 0) := by
  cases op with
  | request w =>
    rw [updateStep]
    by_cases hex : exhausted (inv w) = true
    · rw [if_pos hex]
      by_cases hrep : (inv w).reported = true
      · rw [if_pos hrep]
        simp [countUE]
      · rw [if_neg hrep]
        simp only [setVer, countUE]
        by_cases hvw : v = w
        · subst hvw
          simp [hrep]
        · have hwv : ¬(w = v) := fun hh => hvw hh.symm
          simp [hvw, hwv]
    · rw [if_neg hex]
      simp only [setVer, countUE]
      by_cases hvw : v = w
      · subst hvw
        simp
      · simp [hvw]
  | fatalFailure w =>
    rw [updateStep]
    simp only [setVer, countUE]
    by_cases hvw : v = w
    · subst hvw
      simp
    · simp [hvw]

/-- Over any run, at most one "exhausted retries" event is ever emitted for
a given version (none at all if it was already reported). -/
theorem runOps_event_budget (inv : FlexibleVersion → VersionState)
    (ops : List UpdateOp) (v : FlexibleVersion) :
    countUE (UpdateEvent.exhaustedRetries v) (runOps inv ops).2
        + (if (inv v).reported = true then 1 else 0) ≤ 1 := by
  induction ops generalizing inv with
  | nil =>
    simp only [runOps, countUE]
    split_ifs <;> simp
  | cons op rest ih =>
    rw [runOps]
    simp only [countUE_append]
    have hstep := updateStep_event_budget inv op v
    have hrest := ih (updateStep inv op).1
    omega

/-- The first refusal of an exhausted, not-yet-reported version emits
exactly the "exhausted retries" event for it and marks it reported. -/
theorem updateStep_emits_on_first_refusal (inv : FlexibleVersion → VersionState)
    (v : FlexibleVersion) (hex : exhausted (inv v) = true)
    (hrep : (inv v).reported = false) :
    (updateStep inv (UpdateOp.request v)).2.1 = [UpdateEvent.exhaustedRetries v]
    ∧ (((updateStep inv (UpdateOp.request v)).1) v).reported = true := by
  rw [updateStep, if_pos hex, if_neg (by simp [hrep])]
  constructor
  · rfl
  · simp [setVer]

/-- A step that is not a request for version v emits no "exhausted retries"
event for v and leaves the reported flag of v unchanged. -/
theorem updateStep_other_preserves (inv : FlexibleVersion → VersionState)
    (op : UpdateOp) (v : FlexibleVersion) (hop : ¬(op = UpdateOp.request v)) :
    countUE (UpdateEvent.exhaustedRetries v) (updateStep inv op).2.1 = 0
    ∧ ((updateStep inv op).1 v).reported = (inv v).reported := by
  cases op with
  | request w =>
    have hwv : ¬(w = v) := fun hh => hop (by rw [hh])
    have hvw : ¬(v = w) := fun hh => hwv hh.symm
    rw [updateStep]
    by_cases hex : exhausted (inv w) = true
    · rw [if_pos hex]
      by_cases hrep : (inv w).reported = true
      · rw [if_pos hrep]
        exact ⟨rfl, rfl⟩
      · rw [if_neg hrep]
        constructor
        · simp [countUE, hwv]
        · simp [setVer, hvw]
    · rw [if_neg hex]
      constructor
      · rfl
      · simp [setVer, hvw]
  | fatalFailure w =>
    rw [updateStep]
    constructor
    · rfl
    · simp only [setVer]
      by_cases hvw : v = w
      · subst hvw
        simp
      · simp [hvw]

/-- Over any run containing at least one request for an exhausted,
not-yet-reported version, exactly one "exhausted retries" event is emitted
for it. -/
theorem runOps_emits_exactly_once (inv : FlexibleVersion → VersionState)
    (ops : List UpdateOp) (v : FlexibleVersion)
    (hex : exhausted (inv v) = true) (hrep : (inv v).reported = false)
    (hmem : UpdateOp.request v ∈ ops) :
    countUE (UpdateEvent.exhaustedRetries v) (runOps inv ops).2 = 1 := by
  induction ops generalizing inv with
  | nil => simp at hmem
  | cons op rest ih =>
    rw [runOps]
    simp only [countUE_append]
    by_cases hop : op = UpdateOp.request v
    · subst hop
      obtain ⟨hevs, hrep'⟩ := updateStep_emits_on_first_refusal inv v hex hrep
      rw [hevs]
      have hbudget := runOps_event_budget (updateStep inv (UpdateOp.request v)).1 rest v
      rw [hrep'] at hbudget
      simp at hbudget
      simp [countUE]
      omega
    · obtain ⟨hzero, hkeep⟩ := updateStep_other_preserves inv op v hop
      have hmem' : UpdateOp.request v ∈ rest := by
        rcases List.mem_cons.mp hmem with hh | hh
        · exact absurd hh.symm hop
        · exact hh
      rw [hzero, Nat.zero_add]
      exact ih (updateStep inv op).1 (updateStep_preserves_exhausted inv op v hex)
        (hkeep.trans hrep) hmem'

/-- C5: once a version is marked fatal with its update-attempt count at the
ceiling of 3, it is exhausted: it stays exhausted across every later
operation sequence (even when other versions are requested in between), a
request for it never proceeds, and exactly one "exhausted retries"
telemetry event is emitted for it over any run that requests it at least
once (and never more than one over any run at all); below 3 attempts a
prior fatal mark does not prevent a further update attempt. -/
theorem retry_budget_blacklist_permanent (inv : FlexibleVersion → VersionState)
    (v : FlexibleVersion) (ops : List UpdateOp) :
    (exhausted (inv v) = true →
        exhausted ((runOps inv ops).1 v) = true
        ∧ (updateStep (runOps inv ops).1 (UpdateOp.request v)).2.2 = false)
    ∧ (exhausted (inv v) = true → (inv v).reported = false →
        UpdateOp.request v ∈ ops →
        countUE (UpdateEvent.exhaustedRetries v) (runOps inv ops).2 = 1)
    ∧ ((inv v).reported = false →
        countUE (UpdateEvent.exhaustedRetries v) (runOps inv ops).2 ≤ 1)
    ∧ ((inv v).attempt_count < updateAttemptLimit →
        (updateStep inv (UpdateOp.request v)).2.2 = true) := by
  refine ⟨?_, ?_, ?_, ?_⟩
  · intro h
    have hex := runOps_preserves_exhausted inv ops v h
    exact ⟨hex, updateStep_refuses_exhausted _ v hex⟩
  · intro hex hrep hmem
    exact runOps_emits_exactly_once inv ops v hex hrep hmem
  · intro hrep
    have := runOps_event_budget inv ops v
    rw [hrep] at this
    simpa using this
  · intro hlt
    have hex : exhausted (inv v) = false := by
      simp only [exhausted, Bool.and_eq_false_iff]
      right
      simpa using Nat.not_le_of_lt hlt
    rw [updateStep]
    rw [if_neg (by simp [hex])]

/-- Outcome of applying the RSM rules to a requested version
(spec section 4.2). -/
inductive RsmDecision
  | refuse (why : String)
  | upToDate
  | target (v : FlexibleVersion)
deriving DecidableEq, Repr

/-- Modelled from the spec: the RSM policy rules, in order: (1) refuse a
requested version below the daemon version; (2) refuse a requested version
below the current running version unless downgrade is enabled; (3) a
requested version equal to the current running version is UpToDate (a
successful no-op); (4) otherwise the requested version is the resolved
target (spec section 4.2). -/
def rsm_resolve (downgrade_enabled : Bool) (daemon_version current_version
    requested : FlexibleVersion) : RsmDecision :=
  if versionLt requested daemon_version then
    RsmDecision.refuse "requested version is below the daemon version"
  else if versionLt requested current_version && !downgrade_enabled then
    RsmDecision.refuse "downgrade is not enabled"
  else if requested = current_version then
    RsmDecision.upToDate
  else
    RsmDecision.target requested

/-- The update-status blob reported for the agent-update handler: Success
or Error plus a status code. -/
structure UpdateStatusReport where
  ok : Bool
  code : Nat
deriving DecidableEq, Repr

/-- What one agent-update handler invocation did: which new versioned agent
directories were created, whether a package was downloaded, whether the
distinguished exit-to-restart signal was raised, and the reported update
status (spec sections 4.2, 4.3 and 7). -/
structure HandlerOutcome where
  new_agent_dirs : List FlexibleVersion
  downloaded : Bool
  requested_restart : Bool
  status : UpdateStatusReport
deriving DecidableEq, Repr

/-- Modelled from the spec: one RSM-channel agent-update handler run. A
refusal reports an error without downloading, installing or raising;
UpToDate is a successful no-op (Success, code 0, nothing downloaded or
installed); a resolved target present in the package manifest is
downloaded, unpacked into a new versioned directory and ends by raising
exit-to-restart; a target absent from the manifest degrades to "skip
update, report missing package" without raising (spec sections 4.2 and 4.3). -/
def agent_update_run (downgrade_enabled : Bool) (daemon_version current_version
    requested : FlexibleVersion) (manifest : List FlexibleVersion) : HandlerOutcome :=
  match rsm_resolve downgrade_enabled daemon_version current_version requested with
  | RsmDecision.refuse _ =>
    { new_agent_dirs := [], downloaded := false, requested_restart := false,
      status := { ok := false, code := 1 } }
  | RsmDecision.upToDate =>
    { new_agent_dirs := [], downloaded := false, requested_restart := false,
      status := { ok := true, code := 0 } }
  | RsmDecision.target v =>
    if v ∈ manifest then
      { new_agent_dirs := [v], downloaded := true, requested_restart := true,
        status := { ok := true, code := 0 } }
    else
      { new_agent_dirs := [], downloaded := false, requested_restart := false,
        status := { ok := false, code := 1 } }

/-- C6: when the RSM-requested version is lower than the daemon version the
resolver refuses the update and reports: nothing is downloaded or
installed, no new versioned agent directory is created, and no
exit-to-restart is raised, so the control loop continues. -/
theorem rsm_refuses_below_daemon (downgrade_enabled : Bool)
    (daemon_version current_version requested : FlexibleVersion)
    (manifest : List FlexibleVersion)
    (h : versionLt requested daemon_version = true) :
    rsm_resolve downgrade_enabled daemon_version current_version requested
        = RsmDecision.refuse "requested version is below the daemon version"
    ∧ (agent_update_run downgrade_enabled daemon_version current_version requested
        manifest).new_agent_dirs = []
    ∧ (agent_update_run downgrade_enabled daemon_version current_version requested
        manifest).downloaded = false
    ∧ (agent_update_run downgrade_enabled daemon_version current_version requested
        manifest).requested_restart = false
    ∧ (agent_update_run downgrade_enabled daemon_version current_version requested
        manifest).status.ok = false := by
  have hres : rsm_resolve downgrade_enabled daemon_version current_version requested
      = RsmDecision.refuse "requested version is below the daemon version" := by
    rw [rsm_resolve, if_pos h]
  refine ⟨hres, ?_, ?_, ?_, ?_⟩ <;> rw [agent_update_run, hres]

/-- C6 witness: the spec scenario, requested "1.2.0" with daemon "2.2.53". -/
theorem rsm_refuses_below_daemon_witness :
    rsm_resolve false ⟨2, 2, 53, 0⟩ ⟨2, 2, 53, 0⟩ ⟨1, 2, 0, 0⟩
        = RsmDecision.refuse "requested version is below the daemon version"
    ∧ (agent_update_run false ⟨2, 2, 53, 0⟩ ⟨2, 2, 53, 0⟩ ⟨1, 2, 0, 0⟩
        [⟨1, 2, 0, 0⟩, ⟨2, 2, 53, 0⟩]).new_agent_dirs = []
    ∧ (agent_update_run false ⟨2, 2, 53, 0⟩ ⟨2, 2, 53, 0⟩ ⟨1, 2, 0, 0⟩
        [⟨1, 2, 0, 0⟩, ⟨2, 2, 53, 0⟩]).downloaded = false
    ∧ (agent_update_run false ⟨2, 2, 53, 0⟩ ⟨2, 2, 53, 0⟩ ⟨1, 2, 0, 0⟩
        [⟨1, 2, 0, 0⟩, ⟨2, 2, 53, 0⟩]).requested_restart = false
    ∧ (agent_update_run false ⟨2, 2, 53, 0⟩ ⟨2, 2, 53, 0⟩ ⟨1, 2, 0, 0⟩
        [⟨1, 2, 0, 0⟩, ⟨2, 2, 53, 0⟩]).status.ok = false :=
  rsm_refuses_below_daemon false ⟨2, 2, 53, 0⟩ ⟨2, 2, 53, 0⟩ ⟨1, 2, 0, 0⟩
    [⟨1, 2, 0, 0⟩, ⟨2, 2, 53, 0⟩] (by decide)

/-- C8: when the RSM-requested version equals the current running version
(and is not below the daemon floor, which always holds since the current
version is at least the daemon version), resolution is UpToDate as a
successful no-op: nothing is downloaded, no new agent directory is
created, no restart is requested, and the update status reports Success
with code 0 rather than an error. -/
theorem rsm_up_to_date_noop (downgrade_enabled : Bool)
    (daemon_version current_version requested : FlexibleVersion)
    (manifest : List FlexibleVersion)
    (hfloor : versionLt requested daemon_version = false)
    (heq : requested = current_version) :
    rsm_resolve downgrade_enabled daemon_version current_version requested
        = RsmDecision.upToDate
    ∧ (agent_update_run downgrade_enabled daemon_version current_version requested
        manifest).new_agent_dirs = []
    ∧ (agent_update_run downgrade_enabled daemon_version current_version requested
        manifest).downloaded = false
    ∧ (agent_update_run downgrade_enabled daemon_version current_version requested
        manifest).requested_restart = false
    ∧ (agent_update_run downgrade_enabled daemon_version current_version requested
        manifest).status = { ok := true, code := 0 } := by
  have hres : rsm_resolve downgrade_enabled daemon_version current_version requested
      = RsmDecision.upToDate := by
    rw [rsm_resolve]
    rw [if_neg (by simp [hfloor])]
    have hlt : versionLt requested current_version = false := by
      rw [heq]
      exact versionLt_irrefl current_version
    rw [if_neg (by simp [hlt])]
    rw [if_pos heq]
  refine ⟨hres, ?_, ?_, ?_, ?_⟩ <;> rw [agent_update_run, hres]

/-- C8 witness: requested version equal to the current running version. -/
theorem rsm_up_to_date_noop_witness :
    rsm_resolve false ⟨2, 2, 53, 0⟩ ⟨9, 9, 9, 10⟩ ⟨9, 9, 9, 10⟩
        = RsmDecision.upToDate
    ∧ (agent_update_run false ⟨2, 2, 53, 0⟩ ⟨9, 9, 9, 10⟩ ⟨9, 9, 9, 10⟩
        [⟨9, 9, 9, 10⟩]).new_agent_dirs = []
    ∧ (agent_update_run false ⟨2, 2, 53, 0⟩ ⟨9, 9, 9, 10⟩ ⟨9, 9, 9, 10⟩
        [⟨9, 9, 9, 10⟩]).downloaded = false
    ∧ (agent_update_run false ⟨2, 2, 53, 0⟩ ⟨9, 9, 9, 10⟩ ⟨9, 9, 9, 10⟩
        [⟨9, 9, 9, 10⟩]).requested_restart = false
    ∧ (agent_update_run false ⟨2, 2, 53, 0⟩ ⟨9, 9, 9, 10⟩ ⟨9, 9, 9, 10⟩
        [⟨9, 9, 9, 10⟩]).status = { ok := true, code := 0 } :=
  rsm_up_to_date_noop false ⟨2, 2, 53, 0⟩ ⟨9, 9, 9, 10⟩ ⟨9, 9, 9, 10⟩
    [⟨9, 9, 9, 10⟩] (by decide) (by decide)

/-- The two update channels (spec section 4.2). -/
inductive UpdateChannel
  | selfUpdate
  | rsm
deriving DecidableEq, Repr

/-- Goal-state agent-family input to the channel decision: whether the VM
is enrolled for RSM upgrades, the version RSM requests (if any), and the
family package manifest (spec section 4.2). -/
structure ResolverInput where
  rsm_enrolled : Bool
  requested : Option FlexibleVersion
  manifest : List FlexibleVersion
deriving DecidableEq, Repr

/-- Modelled from the spec: on the very first update opportunity (no
durable initial-update-attempted marker) the channel is forced to
SelfUpdate regardless of RSM configuration; afterwards the channel is RSM
exactly when the goal state enrolls the VM for RSM and names a requested
version (spec section 4.2). -/
def decide_channel (initial_update_attempted : Bool) (inp : ResolverInput) : UpdateChannel :=
  if initial_update_attempted = false then
    UpdateChannel.selfUpdate
  else if inp.rsm_enrolled && inp.requested.isSome then
    UpdateChannel.rsm
  else
    UpdateChannel.selfUpdate

/-- Modelled from the spec: the SelfUpdate policy target: the largest
version in the family manifest strictly greater than the currently running
version (spec section 4.2). -/
def self_update_target (current_version : FlexibleVersion)
    (manifest : List FlexibleVersion) : Option FlexibleVersion :=
  pickMaxBy (fun v => v) (manifest.filter fun v => versionLt current_version v)

/-- Result of one channel resolution: the channel used, the target version
(if any), and the state of the initial-update-attempted marker after the
resolution (spec sections 3 and 4.2). -/
structure ResolveOutcome where
  channel : UpdateChannel
  target : Option FlexibleVersion
  marker_after : Bool
deriving DecidableEq, Repr

/-- Modelled from the spec: one channel resolution: decide the channel,
compute the target for it, and write the durable initial-update-attempted
marker after the attempt (spec section 4.2). -/
def resolve_step (initial_update_attempted : Bool) (current_version : FlexibleVersion)
    (inp : ResolverInput) : ResolveOutcome :=
  let ch := decide_channel initial_update_attempted inp
  { channel := ch
    target :=
      match ch with
      | UpdateChannel.selfUpdate => self_update_target current_version inp.manifest
      | UpdateChannel.rsm => inp.requested
    marker_after := true }

/-- C7: on the very first update opportunity (no initial-update-attempted
marker) the resolver uses the SelfUpdate channel -- picking the largest
manifest version greater than the current one -- even when the goal state
enrolls the VM for RSM and names a requested version; afterwards the
marker is written, and a subsequent resolution with RSM enrolled and a
requested version honors the RSM channel. -/
theorem first_update_uses_self_update (current_version : FlexibleVersion)
    (inp inp2 : ResolverInput) :
    (resolve_step false current_version inp).channel = UpdateChannel.selfUpdate
    ∧ (∀ t, (resolve_step false current_version inp).target = some t →
        t ∈ inp.manifest ∧ versionLt current_version t = true
        ∧ ∀ v ∈ inp.manifest, versionLt t v = false)
    ∧ (resolve_step false current_version inp).marker_after = true
    ∧ (inp2.rsm_enrolled = true → inp2.requested.isSome = true →
        (resolve_step (resolve_step false current_version inp).marker_after
            current_version inp2).channel = UpdateChannel.rsm
        ∧ (resolve_step (resolve_step false current_version inp).marker_after
            current_version inp2).target = inp2.requested) := by
  refine ⟨rfl, ?_, rfl, ?_⟩
  · intro t ht
    have htgt : self_update_target current_version inp.manifest = some t := ht
    have hmem := pickMaxBy_mem _ _ _ htgt
    have hfil := List.mem_filter.mp hmem
    refine ⟨hfil.1, hfil.2, ?_⟩
    intro v hv
    by_cases hgt : versionLt current_version v = true
    · exact pickMaxBy_not_lt _ _ _ htgt v (List.mem_filter.mpr ⟨hv, hgt⟩)
    · have hcv : versionLt current_version v = false := by
        cases hb : versionLt current_version v
        · rfl
        · exact absurd hb hgt
      exact versionLt_false_trans hfil.2 hcv
  · intro hen hreq
    have hch : decide_channel true inp2 = UpdateChannel.rsm := by
      rw [decide_channel]
      rw [if_neg (by simp)]
      rw [if_pos (by simp [hen, hreq])]
    constructor
    · show decide_channel true inp2 = UpdateChannel.rsm
      exact hch
    · show (resolve_step true current_version inp2).target = inp2.requested
      rw [resolve_step]
      simp only [hch]

/-- C9: an installed agent whose persisted error record is missing or
corrupt is loaded as having no prior failure, so it stays available; in
particular, when every error record is corrupt, latest-agent selection
still returns the latest on-disk version greater than the daemon version. -/
theorem corrupt_error_record_selection (daemon_version : FlexibleVersion)
    (versions : List FlexibleVersion)
    (hgt : ∀ v ∈ versions, versionLt daemon_version v = true)
    (hne : versions ≠ []) :
    (∀ (v : FlexibleVersion) (rec : ErrorRecord),
        rec = ErrorRecord.corrupt ∨ rec = ErrorRecord.missing →
        (from_installed_agent v rec).error = emptyError
        ∧ (from_installed_agent v rec).is_available = true)
    ∧ ∃ a, get_latest_agent_greater_than_daemon daemon_version
          (versions.map fun v => from_installed_agent v ErrorRecord.corrupt) = some a
        ∧ a.version ∈ versions
        ∧ ∀ v ∈ versions, versionLt a.version v = false := by
  constructor
  · intro v rec hrec
    rcases hrec with hrec | hrec <;> subst hrec <;>
      exact ⟨rfl, rfl⟩
  · have hfil : (versions.map fun v => from_installed_agent v ErrorRecord.corrupt).filter
        (fun a => a.is_available && versionLt daemon_version a.version)
        = versions.map fun v => from_installed_agent v ErrorRecord.corrupt := by
      rw [List.filter_eq_self]
      intro a ha
      obtain ⟨v, hv, rfl⟩ := List.mem_map.mp ha
      simp only [Bool.and_eq_true]
      exact ⟨rfl, hgt v hv⟩
    have hmapne : (versions.map fun v => from_installed_agent v ErrorRecord.corrupt) ≠ [] := by
      simp [hne]
    unfold get_latest_agent_greater_than_daemon
    rw [hfil]
    obtain ⟨m, hm⟩ := pickMaxBy_isSome (fun a => a.version) _ hmapne
    refine ⟨m, hm, ?_, ?_⟩
    · have hmem := pickMaxBy_mem _ _ _ hm
      obtain ⟨v, hv, hveq⟩ := List.mem_map.mp hmem
      rw [← hveq]
      exact hv
    · intro v hv
      have := pickMaxBy_not_lt _ _ _ hm (from_installed_agent v ErrorRecord.corrupt)
        (List.mem_map.mpr ⟨v, hv, rfl⟩)
      exact this

/-- C9 witness: two agents with corrupt error records above daemon 1.0.0.0. -/
theorem corrupt_error_record_selection_witness :
    (∀ (v : FlexibleVersion) (rec : ErrorRecord),
        rec = ErrorRecord.corrupt ∨ rec = ErrorRecord.missing →
        (from_installed_agent v rec).error = emptyError
        ∧ (from_installed_agent v rec).is_available = true)
    ∧ ∃ a, get_latest_agent_greater_than_daemon ⟨1, 0, 0, 0⟩
          ([⟨2, 2, 53, 0⟩, ⟨9, 9, 9, 10⟩].map fun v => from_installed_agent v ErrorRecord.corrupt)
          = some a
        ∧ a.version ∈ [⟨2, 2, 53, 0⟩, ⟨9, 9, 9, 10⟩]
        ∧ ∀ v ∈ ([⟨2, 2, 53, 0⟩, ⟨9, 9, 9, 10⟩] : List FlexibleVersion),
            versionLt a.version v = false :=
  corrupt_error_record_selection ⟨1, 0, 0, 0⟩ [⟨2, 2, 53, 0⟩, ⟨9, 9, 9, 10⟩]
    (by decide) (by decide)

-- The command strings of azurelinuxagent/agent.py (class AgentCommands).
namespace AgentCommands

def DeprovisionUser : String := "deprovision+user"

def Deprovision : String := "deprovision"

def Daemon : String := "daemon"

def Start : String := "start"

def RegisterService : String := "register-service"

def RunExthandlers : String := "run-exthandlers"

def Version : String := "version"

def ShowConfig : String := "show-configuration"

def Help : String := "help"

def CollectLogs : String := "collect-logs"

def SetupFirewall : String := "setup-firewall"

def Provision : String := "provision"

end AgentCommands

def isFlagChar (c : Char) : Bool := c == '-' || c == '/'

/-- The leading run of dashes and slashes every command regex in parse_args
skips. -/
def stripFlagChars : List Char → List Char
  | [] => []
  | c :: rest => if isFlagChar c then stripFlagChars rest else c :: rest

/-- re.match of a command regex over an argument: optional dashes/slashes
followed by the literal command as a prefix (agent.py regex_cmd_format). -/
def matchCmd (cmd : String) (arg : String) : Bool :=
  cmd.toList.isPrefixOf (stripFlagChars arg.toList)

/-- The character class of the configuration-path capture group. -/
def isConfPathChar (c : Char) : Bool :=
  c.isAlphanum || c == '_' || c == '/' || c == '.' || c == '-'

/-- The configuration-path regex of parse_args: after optional dashes, the
literal "configuration-path:" and a nonempty path capture. -/
def confPathArg (arg : String) : Option String :=
  let rest := stripFlagChars arg.toList
  let pfx := "configuration-path:".toList
  if pfx.isPrefixOf rest then
    let path := (rest.drop pfx.length).takeWhile isConfPathChar
    if path.isEmpty then none else some (String.mk path)
  else
    none

/-- The character class of the setup-firewall endpoint capture group. -/
def isEndpointChar (c : Char) : Bool := c.isDigit || c == '.'

/-- The setup-firewall regex of parse_args: after optional dashes, the
literal "setup-firewall=" and an endpoint of at least 7 digits or dots. -/
def firewallArg (arg : String) : Option String :=
  let rest := stripFlagChars arg.toList
  let pfx := "setup-firewall=".toList
  if pfx.isPrefixOf rest then
    let ep := (rest.drop pfx.length).takeWhile isEndpointChar
    if 7 ≤ ep.length then some (String.mk ep) else none
  else
    none

/-- The state threaded through agent.py parse_args: the recognized command
and the accumulated flags. -/
structure ParseState where
  cmd : String
  force : Bool
  verbose : Bool
  debug : Bool
  conf_file_path : Option String
  log_collector_full_mode : Bool
  endpoint : Option String
deriving DecidableEq, Repr

/-- The loop body of agent.py parse_args, one branch per elif in source
order; none models the sys.exit(1) taken when the configuration file named
by a configuration-path argument does not exist. -/
def parseLoop (fileExists : String → Bool) : ParseState → List String → Option ParseState
  | st, [] => some st
  | st, arg :: rest =>
    if arg = "" then
      parseLoop fileExists st rest
    else
      match confPathArg arg with
      | some p =>
        if fileExists p then
          parseLoop fileExists { st with conf_file_path := some p } rest
        else
          none
      | none =>
        if matchCmd AgentCommands.DeprovisionUser arg then
          parseLoop fileExists { st with cmd := AgentCommands.DeprovisionUser } rest
        else if matchCmd AgentCommands.Deprovision arg then
          parseLoop fileExists { st with cmd := AgentCommands.Deprovision } rest
        else if matchCmd AgentCommands.Daemon arg then
          parseLoop fileExists { st with cmd := AgentCommands.Daemon } rest
        else if matchCmd AgentCommands.Start arg then
          parseLoop fileExists { st with cmd := AgentCommands.Start } rest
        else if matchCmd AgentCommands.RegisterService arg then
          parseLoop fileExists { st with cmd := AgentCommands.RegisterService } rest
        else if matchCmd AgentCommands.RunExthandlers arg then
          parseLoop fileExists { st with cmd := AgentCommands.RunExthandlers } rest
        else if matchCmd AgentCommands.Version arg then
          parseLoop fileExists { st with cmd := AgentCommands.Version } rest
        else if matchCmd "verbose" arg then
          parseLoop fileExists { st with verbose := true } rest
        else if matchCmd "debug" arg then
          parseLoop fileExists { st with debug := true } rest
        else if matchCmd "force" arg then
          parseLoop fileExists { st with force := true } rest
        else if matchCmd AgentCommands.ShowConfig arg then
          parseLoop fileExists { st with cmd := AgentCommands.ShowConfig } rest
        else if matchCmd "help" arg || matchCmd "usage" arg || matchCmd "?" arg then
          parseLoop fileExists { st with cmd := AgentCommands.Help } rest
        else if matchCmd AgentCommands.CollectLogs arg then
          parseLoop fileExists { st with cmd := AgentCommands.CollectLogs } rest
        else if matchCmd "full" arg then
          parseLoop fileExists { st with log_collector_full_mode := true } rest
        else
          match firewallArg arg with
          | some ep =>
            parseLoop fileExists
              { st with cmd := AgentCommands.SetupFirewall, endpoint := some ep } rest
          | none =>
            some { st with cmd := AgentCommands.Help }

/-- agent.py parse_args: fold the argument list from the Help default. -/
def parse_args (fileExists : String → Bool) (args : List String) : Option ParseState :=
  parseLoop fileExists
    { cmd := AgentCommands.Help, force := false, verbose := false, debug := false,
      conf_file_path := none, log_collector_full_mode := false, endpoint := none } args

/-- Result of constructing the Agent object and executing one of its
commands: normal return, or a raised exception (the Exception class, which
the except clause in main catches). -/
inductive PyResult
  | ok
  | exn (msg : String)
deriving DecidableEq, Repr

/-- The observable outcome of agent.py main. -/
inductive MainOutcome
  | versionShown
  | usageShown
  | started
  | ranCommand (cmd : String)
  | loggedFailure (cmd : String)
  | exitedProcess (code : Nat)
deriving DecidableEq, Repr

/-- agent.py main: parse the arguments, handle Version/Help/Start outside
the try block, and run every other recognized command through the Agent
object inside a try whose except clause logs "Failed to run" and returns
normally. `agentResult` models what constructing the Agent and executing
the command does. -/
def main (fileExists : String → Bool) (agentResult : ParseState → PyResult)
    (args : List String) : MainOutcome :=
  match parse_args fileExists args with
  | none => MainOutcome.exitedProcess 1
  | some pa =>
    if pa.cmd = AgentCommands.Version then MainOutcome.versionShown
    else if pa.cmd = AgentCommands.Help then MainOutcome.usageShown
    else if pa.cmd = AgentCommands.Start then MainOutcome.started
    else
      match agentResult pa with
      | PyResult.ok => MainOutcome.ranCommand pa.cmd
      | PyResult.exn _ => MainOutcome.loggedFailure pa.cmd

/-- The commands dispatched through the Agent object inside the try block
of main. -/
def agentObjectCommands : List String :=
  [AgentCommands.DeprovisionUser, AgentCommands.Deprovision, AgentCommands.Provision,
   AgentCommands.RegisterService, AgentCommands.Daemon, AgentCommands.RunExthandlers,
   AgentCommands.ShowConfig, AgentCommands.CollectLogs, AgentCommands.SetupFirewall]

/-- C10: for every argument list whose recognized command is one of the
Agent-object commands, an exception raised while constructing the Agent or
executing the command is caught inside main: main logs the failure and
returns normally (outcome loggedFailure) instead of propagating the
exception. -/
theorem main_catches_agent_command_errors (fileExists : String → Bool)
    (agentResult : ParseState → PyResult) (args : List String) (pa : ParseState)
    (msg : String)
    (hparse : parse_args fileExists args = some pa)
    (hcmd : pa.cmd ∈ agentObjectCommands)
    (hexn : agentResult pa = PyResult.exn msg) :
    main fileExists agentResult args = MainOutcome.loggedFailure pa.cmd := by
  simp only [agentObjectCommands, List.mem_cons, List.not_mem_nil, or_false] at hcmd
  have hv : ¬(pa.cmd = AgentCommands.Version) := by
    rcases hcmd with h | h | h | h | h | h | h | h | h <;> rw [h] <;> decide
  have hh : ¬(pa.cmd = AgentCommands.Help) := by
    rcases hcmd with h | h | h | h | h | h | h | h | h <;> rw [h] <;> decide
  have hs : ¬(pa.cmd = AgentCommands.Start) := by
    rcases hcmd with h | h | h | h | h | h | h | h | h <;> rw [h] <;> decide
  simp only [main, hparse, hexn]
  rw [if_neg hv, if_neg hh, if_neg hs]

/-- C10 witness: the daemon command with an Agent body that raises. -/
theorem main_catches_agent_command_errors_witness :
    main (fun _ => true) (fun _ => PyResult.exn "agent body raised") ["-daemon"]
      = MainOutcome.loggedFailure "daemon" :=
  main_catches_agent_command_errors (fun _ => true)
    (fun _ => PyResult.exn "agent body raised") ["-daemon"]
    { cmd := AgentCommands.Daemon, force := false, verbose := false, debug := false,
      conf_file_path := none, log_collector_full_mode := false, endpoint := none }
    "agent body raised" (by decide) (by decide) rfl

end Wala
